import Mathlib

/-!
Verification of the cross-module event coordination core of the
Gaza War Documentation website (EventBus, module bootstrap, and the
Timeline / InteractiveMap / SatelliteImagery module operations that the
coordinator's routing table invokes).

The definitions below are a shallow embedding of the JavaScript source:

* `EventBus` (src/unnamed/part_002, class `EventBus`): the bus state is an
  association list mirroring the JS `Map` from event name to the mutable
  callback array.  Callbacks are identified by numeric ids; each id's
  behaviour is given by an environment mapping ids to a callback kind:
  either a plain function whose body is a list of bus effects
  (subscribe, unsubscribe, benign work, throw), or the wrapper closure
  built by `once(event, callback)`, which runs the wrapped callback's
  body and then unsubscribes itself.  `emit` mirrors
  `Array.prototype.forEach` over the live array: the length is cached at
  the start, and at each index the element is read from the current
  array contents (a spliced-out element shifts later elements down, so
  an index past the current length is skipped), with the per-callback
  try/catch of the source swallowing a thrown error.
-/

namespace GazaDoc

/-- Arguments passed to an emit; their shape is irrelevant to the bus. -/
abbrev Args := List Nat

/-- Effects a callback body may perform on the bus while it runs:
subscribing, unsubscribing, work that does not touch the bus, and
throwing an error. -/
inductive CbEff where
  | noop : CbEff
  | doOn (event : String) (cb : Nat) : CbEff
  | doOff (event : String) (cb : Nat) : CbEff
  | throwErr : CbEff
deriving DecidableEq, Repr

/-- The closure state of a wrapper produced by `once(event, callback)`:
the event it was registered for, and the wrapped callback's identity and
body.  The wrapper runs the body and then calls `off(event, wrapper)`;
if the body throws, the `off` call is never reached. -/
structure OnceInfo where
  event : String
  innerId : Nat
  innerBody : List CbEff
deriving DecidableEq, Repr

/-- A callback is either a plain function or a `once` wrapper. -/
inductive CbKind where
  | plain (body : List CbEff)
  | onceWrap (info : OnceInfo)
deriving DecidableEq, Repr

/-- Environment fixing each callback id's behaviour. -/
abbrev Env := Nat → CbKind

/-- EventBus state: the `events` Map (event name to callback array, in
insertion order) together with an invocation trace recording each
callback invocation and the arguments it received. -/
structure BusState where
  events : List (String × List Nat)
  trace : List (Nat × Args)
deriving DecidableEq, Repr

/-- Lookup in the events Map (`this.events.get(event)` /
`this.events.has(event)`). -/
def lookupEvent (evs : List (String × List Nat)) (ev : String) : Option (List Nat) :=
  match evs with
  | [] => none
  | (e, cbs) :: rest => if e = ev then some cbs else lookupEvent rest ev

/-- Replace (or append) the callback array stored under an event name. -/
def setEvent (evs : List (String × List Nat)) (ev : String) (cbs : List Nat) :
    List (String × List Nat) :=
  match evs with
  | [] => [(ev, cbs)]
  | (e, l) :: rest => if e = ev then (ev, cbs) :: rest else (e, l) :: setEvent rest ev cbs

/-- `EventBus.on(event, callback)`: create the array if absent, then push. -/
def busOn (s : BusState) (ev : String) (c : Nat) : BusState :=
  match lookupEvent s.events ev with
  | none => { s with events := setEvent s.events ev [c] }
  | some cbs => { s with events := setEvent s.events ev (cbs ++ [c]) }

/-- `EventBus.off(event, callback)`: splice out the first occurrence of
the callback if the event has an array and the callback occurs in it
(`indexOf` + `splice`); otherwise a no-op. -/
def busOff (s : BusState) (ev : String) (c : Nat) : BusState :=
  match lookupEvent s.events ev with
  | none => s
  | some cbs => { s with events := setEvent s.events ev (cbs.erase c) }

/-- Run a plain callback body: effects execute in order; `throwErr`
aborts the rest of the body and reports that the callback threw. -/
def runBody (s : BusState) (body : List CbEff) : BusState × Bool :=
  match body with
  | [] => (s, false)
  | CbEff.noop :: rest => runBody s rest
  | CbEff.doOn ev c :: rest => runBody (busOn s ev c) rest
  | CbEff.doOff ev c :: rest => runBody (busOff s ev c) rest
  | CbEff.throwErr :: _ => (s, true)

/-- Invoke callback `c` with `args`; the returned flag records whether
the callback threw.  A `once` wrapper (`onceCallback` in the source)
first calls the wrapped callback, then unsubscribes itself; when the
wrapped callback throws, the self-removing `off` call is not reached and
the exception propagates out of the wrapper. -/
def invoke (env : Env) (s : BusState) (c : Nat) (args : Args) : BusState × Bool :=
  match env c with
  | CbKind.plain body =>
      runBody { s with trace := s.trace ++ [(c, args)] } body
  | CbKind.onceWrap info =>
      let s1 := { s with trace := s.trace ++ [(c, args), (info.innerId, args)] }
      let r := runBody s1 info.innerBody
      if r.2 then (r.1, true) else (busOff r.1 info.event c, false)

/-- One pass of `emit`'s `forEach` loop: `k` is the current index and
the second argument counts the remaining iterations out of the length
cached when the loop started.  At each index the element is read from
the current array contents; an index at or past the current length is
skipped (the element was spliced out).  The per-callback try/catch of
the source swallows the thrown-flag. -/
def emitSteps (env : Env) (ev : String) (args : Args) (k : Nat) :
    Nat → BusState → BusState
  | 0, s => s
  | n + 1, s =>
      let cbs := (lookupEvent s.events ev).getD []
      let s' := if h : k < cbs.length then (invoke env s (cbs.get ⟨k, h⟩) args).1 else s
      emitSteps env ev args (k + 1) n s'

/-- `EventBus.emit(event, ...args)`: a silent no-op when the event has
no entry; otherwise iterate over the live callback array with the
length cached at the start. -/
def emit (env : Env) (s : BusState) (ev : String) (args : Args) : BusState :=
  match lookupEvent s.events ev with
  | none => s
  | some cbs => emitSteps env ev args 0 cbs.length s

/-- `EventBus.once(event, callback)`: register the wrapper closure `w`
(theorems require `env w` to be the corresponding `onceWrap`). -/
def busOnce (s : BusState) (ev : String) (w : Nat) : BusState :=
  busOn s ev w

/-- Iterate `emit` with the same event and arguments. -/
def emitIter (env : Env) (ev : String) (args : Args) : Nat → BusState → BusState
  | 0, s => s
  | n + 1, s => emitIter env ev args n (emit env s ev args)

/-- Number of invocations of callback `c` recorded in a trace. -/
def countCb (c : Nat) (tr : List (Nat × Args)) : Nat :=
  (tr.filter (fun p => p.1 == c)).length

/-- An effect keeps the callback array of `ev` intact up to appending:
it is not an unsubscription from `ev`. -/
def effKeeps (ev : String) : CbEff → Bool
  | CbEff.doOff e _ => e != ev
  | _ => true

/-- An effect leaves the callback array of `ev` completely unchanged. -/
def effInert (ev : String) : CbEff → Bool
  | CbEff.doOn e _ => e != ev
  | CbEff.doOff e _ => e != ev
  | _ => true

/-- Callback `c` is a plain callback that never unsubscribes a callback
of `ev` (it may subscribe, do benign work, or throw). -/
def plainKeeps (env : Env) (ev : String) (c : Nat) : Prop :=
  ∃ body, env c = CbKind.plain body ∧ ∀ e ∈ body, effKeeps ev e = true

/-- Callback `c` is a plain callback that throws when invoked
(a `throwErr` effect in a body is always reached, since the preceding
effects cannot abort the body). -/
def plainThrows (env : Env) (c : Nat) : Prop :=
  ∃ body, env c = CbKind.plain body ∧ CbEff.throwErr ∈ body

/-- Environment for the C1 counterexample: callback 0 unsubscribes
itself from event "e" while running; callback 1 does nothing. -/
def envSkip : Env := fun n =>
  if n = 0 then CbKind.plain [CbEff.doOff "e" 0] else CbKind.plain []

/-- Witness for C1 (amended): two callbacks that do not unsubscribe are
both invoked, in order. -/
def envW1 : Env := fun _ => CbKind.plain []

/-- Environment for the C2 witness: callback 0 throws, callback 1 is
benign. -/
def envW2 : Env := fun n =>
  if n = 0 then CbKind.plain [CbEff.throwErr] else CbKind.plain []

/-- Environment for the C4 witness: id 0 is the `once` wrapper around
the benign callback 1. -/
def envOnceOk : Env := fun n =>
  if n = 0 then CbKind.onceWrap ⟨"e", 1, [CbEff.noop]⟩ else CbKind.plain []

/-- Environment for the C10 witness: id 0 is the `once` wrapper around
callback 1, which throws immediately. -/
def envOnceThrow : Env := fun n =>
  if n = 0 then CbKind.onceWrap ⟨"e", 1, [CbEff.throwErr]⟩ else CbKind.plain []


/-- Outcome of one module's bootstrap attempt in
`GazaWarDocumentation.initializeModules` (src/unnamed/part_003, lines
871-891): the constructor may throw, `await module.init()` may reject,
or both succeed. -/
inductive ModResult where
  | ok
  | ctorThrows
  | initRejects
deriving DecidableEq, Repr

/-- Observable events of the bootstrap loop, used to state that a
module was constructed, had `init` called, was registered, or failed
(the catch branch). -/
inductive BootStep where
  | constructed (name : String)
  | initCalled (name : String)
  | registered (name : String)
  | failed (name : String)
deriving DecidableEq, Repr

/-- One iteration of the bootstrap loop: `new ModuleClass(...)`, then
`await module.init()`, then `this.modules.set(name, module)`, the whole
body wrapped in try/catch ("Continue with other modules"). -/
def moduleAttempt : String × ModResult → List BootStep × List String
  | (n, ModResult.ctorThrows) => ([BootStep.failed n], [])
  | (n, ModResult.initRejects) =>
      ([BootStep.constructed n, BootStep.initCalled n, BootStep.failed n], [])
  | (n, ModResult.ok) =>
      ([BootStep.constructed n, BootStep.initCalled n, BootStep.registered n], [n])

/-- `initializeModules`: run the bootstrap loop sequentially over the
descriptor list, returning the event trace and the registry (the
`modules` Map keys, in insertion order).  The source hard-codes the
five descriptors (timeline, map, news, satellite, sources); the loop
body is independent of the list, so it is embedded generically. -/
def initializeModules : List (String × ModResult) → List BootStep × List String
  | [] => ([], [])
  | m :: rest =>
      ((moduleAttempt m).1 ++ (initializeModules rest).1,
       (moduleAttempt m).2 ++ (initializeModules rest).2)

/-- Timeline configuration fields that `loadData` reads or writes
(src/unnamed/part_001, constructor lines 730-740); the remaining fields
only drive rendering.  Defaults: `dataSource = "data/timeline.json"`,
`startDate = endDate = null`. -/
structure TimelineConfig where
  dataSource : String
  startDate : Option Int
  endDate : Option Int
deriving DecidableEq, Repr

/-- A processed timeline event; `date` is the epoch-millisecond value
of the JS `Date` (the `formattedDate` display string is rendering-only
and omitted). -/
structure TimelineEvent where
  id : String
  date : Int
  title : String
  description : String
deriving DecidableEq, Repr

/-- A raw event as fetched from the data source; `date = none` models a
date string that parses to an invalid `Date` (filtered out by
`loadData`). -/
structure RawEvent where
  id : String
  date : Option Int
  title : String
  description : String
deriving DecidableEq, Repr

/-- Timeline module state touched by the embedded operations. -/
structure TimelineState where
  config : TimelineConfig
  events : List TimelineEvent
  currentIndex : Nat
  isPlaying : Bool
  playInterval : Option Nat
deriving DecidableEq, Repr

/-- `new Timeline(container, config, eventBus)` (lines 721-759): the
container selector is resolved against the page (`dom`); when it
resolves to nothing the constructor throws "Timeline container not
found" before anything else, and `init` is never part of the
constructor. -/
def Timeline.construct (dom : String → Bool) (container : String)
    (cfg : TimelineConfig) : Except String TimelineState :=
  if dom container then
    Except.ok
      { config := cfg, events := [], currentIndex := 0, isPlaying := false,
        playInterval := none }
  else
    Except.error "Timeline container not found"

/-- Result of `httpClient.get(this.config.dataSource)` plus the schema
check of `loadData`: the fetch may reject, the payload may be neither
an array nor an object with a `timeline.events` array (the thrown
schema error is caught by `loadData`'s own catch), or it yields a raw
event list by one of the two accepted shapes. -/
inductive FetchOutcome where
  | fetchFails
  | malformed
  | arrayData (events : List RawEvent)
  | nestedData (events : List RawEvent)
deriving DecidableEq, Repr

/-- Process raw events: construct a `Date` per event, drop events whose
date is invalid, and sort ascending by date
(`.map(...).filter(...).sort((a, b) => a.date - b.date)`). -/
def parseTimelineEvents (raw : List RawEvent) : List TimelineEvent :=
  (raw.filterMap (fun r =>
      r.date.map (fun d => TimelineEvent.mk r.id d r.title r.description))).mergeSort
    (fun a b => decide (a.date ≤ b.date))

/-- The built-in sample dataset of `Timeline.loadFallbackData` (lines
841-880).  The dates are the epoch-millisecond values of
`new Date('2023-10-07')`, `new Date('2023-10-08')` and
`new Date('2023-10-15')`. -/
def fallbackEvents : List TimelineEvent :=
  [ ⟨"event-1", 1696636800000, "Conflict Begins",
      "Hamas launches surprise attack on Israel"⟩,
    ⟨"event-2", 1696723200000, "Israeli Response",
      "Israel begins military response operations"⟩,
    ⟨"event-3", 1697328000000, "Humanitarian Crisis",
      "UN reports humanitarian crisis in Gaza"⟩ ]

/-- `Timeline.loadFallbackData()`: install the sample events and set
`config.startDate`/`config.endDate` unconditionally from the first and
last sample events (`this.events[0].date`,
`this.events[this.events.length - 1].date`). -/
def Timeline.loadFallbackData (st : TimelineState) : TimelineState :=
  { st with
    events := fallbackEvents,
    config := { st.config with
      startDate := fallbackEvents.head?.map TimelineEvent.date,
      endDate := fallbackEvents.getLast?.map TimelineEvent.date } }

/-- The success path of `loadData`: process the fetched events and fill
in `config.startDate`/`config.endDate` only when unset and events are
present. -/
def Timeline.loadDataFrom (st : TimelineState) (raw : List RawEvent) : TimelineState :=
  let evs := parseTimelineEvents raw
  { st with
    events := evs,
    config := { st.config with
      startDate := match st.config.startDate with
        | none => evs.head?.map TimelineEvent.date
        | some d => some d,
      endDate := match st.config.endDate with
        | none => evs.getLast?.map TimelineEvent.date
        | some d => some d } }

/-- `Timeline.loadData()` (lines 796-836): the whole body sits in a
try/catch whose catch logs and calls `loadFallbackData`, so both a
rejected fetch and a malformed payload (whose schema error is thrown
inside the try) end in the fallback, and `loadData` itself never
rejects. -/
def Timeline.loadData (st : TimelineState) (fetch : FetchOutcome) : TimelineState :=
  match fetch with
  | FetchOutcome.fetchFails => Timeline.loadFallbackData st
  | FetchOutcome.malformed => Timeline.loadFallbackData st
  | FetchOutcome.arrayData raw => Timeline.loadDataFrom st raw
  | FetchOutcome.nestedData raw => Timeline.loadDataFrom st raw

/-- `Timeline.init()` (lines 764-791): `await loadData()` (which never
rejects), then `createTimelineStructure`, `setupControls`, `render` and
`setupEventListeners` — all four only touch the document and leave the
module's events and config unchanged, so the embedding carries only the
data state; `init` would reject only if one of those DOM steps threw,
which the embedded state gives no occasion for. -/
def Timeline.init (st : TimelineState) (fetch : FetchOutcome) :
    Except String TimelineState :=
  Except.ok (Timeline.loadData st fetch)

/-- Marker opacity: `filterByDate` only ever calls `setOpacity(1)` or
`setOpacity(0.3)`, and markers start at Leaflet's default full
opacity. -/
inductive Opacity where
  | full
  | dimmed
deriving DecidableEq, Repr

/-- A location record of `InteractiveMap.locationData`; `date = none`
models a record without a (valid) `date` field. -/
structure MapLocation where
  id : String
  date : Option Int
deriving DecidableEq, Repr

/-- InteractiveMap module state: the `markers` Map (location id to that
marker's current opacity, insertion-ordered), the location records, the
Leaflet map handle and the layer groups. -/
structure MapState where
  mapHandle : Bool
  markers : List (String × Opacity)
  locationData : List MapLocation
  layerGroups : List String
deriving DecidableEq, Repr

/-- The per-marker body of `InteractiveMap.filterByDate` (lines
503-520): find the marker's location record by id; when it exists and
has a date, set opacity by the 7-day rule, otherwise leave the marker
untouched.  `Math.abs(targetDate - location.date) / (1000*60*60*24) <= 7`
is exact for integer millisecond differences (both boundary constants
are float-representable and the quotient at the boundary is exactly 7),
hence equivalent to the integer comparison below. -/
def markerFilter (st : MapState) (date : Int) (m : String × Opacity) :
    String × Opacity :=
  match st.locationData.find? (fun loc => loc.id == m.1) with
  | some loc =>
      match loc.date with
      | some d =>
          if (date - d).natAbs ≤ 7 * 86400000 then (m.1, Opacity.full)
          else (m.1, Opacity.dimmed)
      | none => m
  | none => m

/-- `InteractiveMap.filterByDate(date)`: apply the per-marker rule to
every marker. -/
def InteractiveMap.filterByDate (st : MapState) (date : Int) : MapState :=
  { st with markers := st.markers.map (markerFilter st date) }

/-- Coordinator route for `timeline:dateChanged` (src/unnamed/part_003,
lines 899-904): look up the map module in the registry and call
`filterByDate` when present. -/
def handleTimelineDateChanged (mapModule : Option MapState) (date : Int) :
    Option MapState :=
  mapModule.map (fun m => InteractiveMap.filterByDate m date)

/-- `InteractiveMap.destroy()` (lines 685-695): remove and null the map
handle when present, then clear the layer groups and markers. -/
def InteractiveMap.destroy (st : MapState) : MapState :=
  let st1 := if st.mapHandle then { st with mapHandle := false } else st
  { st1 with layerGroups := [], markers := [] }

/-- Bounds of a predefined satellite location
(satellite.js, lines 51-96). -/
structure SatBounds where
  north : Rat
  south : Rat
  east : Rat
  west : Rat
deriving DecidableEq, Repr

/-- A predefined satellite location (its `center` and `description`
play no role in the embedded operations). -/
structure SatLocation where
  name : String
  bounds : SatBounds
deriving DecidableEq, Repr

/-- The `locations` Map of the SatelliteImagery constructor, in
insertion order.  The decimal bound constants of the source are written
as exact rationals (`31.59` as `mkRat 3159 100`, and so on). -/
def satLocations : List (String × SatLocation) :=
  [ ("gaza-strip",
      ⟨"Gaza Strip", ⟨mkRat 3159 100, mkRat 3122 100, mkRat 3457 100, mkRat 3422 100⟩⟩),
    ("gaza-city",
      ⟨"Gaza City", ⟨mkRat 3152 100, mkRat 3148 100, mkRat 3448 100, mkRat 3444 100⟩⟩),
    ("rafah",
      ⟨"Rafah", ⟨mkRat 3132 100, mkRat 3128 100, mkRat 3426 100, mkRat 3422 100⟩⟩),
    ("khan-younis",
      ⟨"Khan Younis", ⟨mkRat 3136 100, mkRat 3132 100, mkRat 3432 100, mkRat 3428 100⟩⟩) ]

/-- Satellite module state touched by `showLocation`. -/
structure SatelliteState where
  currentLocation : String
  timelapseIndex : Nat
deriving DecidableEq, Repr

/-- `lat >= bounds.south && lat <= bounds.north && lng >= bounds.west
&& lng <= bounds.east` (satellite.js, lines 637-638); coordinates are
exact rationals, matching the float comparisons on the representable
constants involved. -/
def SatBounds.containsCoords (b : SatBounds) (lat lng : Rat) : Bool :=
  decide (b.south ≤ lat) && decide (lat ≤ b.north) &&
  decide (b.west ≤ lng) && decide (lng ≤ b.east)

/-- `SatelliteImagery.findLocationByCoordinates(coordinates)` (lines
632-644): walk the locations Map in insertion order and return the
first key whose bounds contain the point, else null. -/
def SatelliteImagery.findLocationByCoordinates (lat lng : Rat) : Option String :=
  (satLocations.find? (fun p => p.2.bounds.containsCoords lat lng)).map Prod.fst

/-- `SatelliteImagery.changeLocation(location)` (lines 471-486): when
the key is a known location, set `currentLocation` and reset
`timelapseIndex` (the subsequent image reload and
`satellite:locationChanged` emission do not touch these fields). -/
def SatelliteImagery.changeLocation (st : SatelliteState) (loc : String) :
    SatelliteState :=
  if satLocations.any (fun p => p.1 == loc) then
    { st with currentLocation := loc, timelapseIndex := 0 }
  else st

/-- The `map:locationSelected` payload as `showLocation` reads it:
`location.coordinates` is either absent/falsy or a `[lat, lng]` pair. -/
structure LocationRecord where
  coordinates : Option (Rat × Rat)
deriving DecidableEq, Repr

/-- `SatelliteImagery.showLocation(location)` (lines 620-627): when the
record carries coordinates and some known region's bounds contain them,
change to that region; otherwise do nothing. -/
def SatelliteImagery.showLocation (st : SatelliteState) (loc : LocationRecord) :
    SatelliteState :=
  match loc.coordinates with
  | none => st
  | some (lat, lng) =>
      match SatelliteImagery.findLocationByCoordinates lat lng with
      | some key => SatelliteImagery.changeLocation st key
      | none => st

/-- Coordinator route for `map:locationSelected` (src/unnamed/part_003,
lines 907-912): look up the satellite module in the registry and call
`showLocation` when present. -/
def handleMapLocationSelected (satModule : Option SatelliteState)
    (loc : LocationRecord) : Option SatelliteState :=
  satModule.map (fun s => SatelliteImagery.showLocation s loc)

/-- The browser's active interval timers, by id; `clearInterval(id)`
removes the id, after which its tick never fires again. -/
structure TimerSys where
  active : List Nat
deriving DecidableEq, Repr

/-- `clearInterval(id)`. -/
def TimerSys.clear (sys : TimerSys) (id : Nat) : TimerSys :=
  { active := sys.active.filter (fun x => x != id) }

/-- Whether a tick of timer `id` can still fire. -/
def TimerSys.fires (sys : TimerSys) (id : Nat) : Bool :=
  decide (id ∈ sys.active)

/-- `Timeline.pause()` (lines 1244-1262): clear `isPlaying`, clear and
null `playInterval` when set.  The button-state updates and the
`timeline:playPaused` emission touch no module or timer state and are
omitted. -/
def Timeline.pause (st : TimelineState) (sys : TimerSys) :
    TimelineState × TimerSys :=
  let st1 := { st with isPlaying := false }
  match st1.playInterval with
  | some id => ({ st1 with playInterval := none }, sys.clear id)
  | none => (st1, sys)

/-- `Timeline.destroy()` (lines 1340-1352): `pause()`, remove the
window resize listener (document-only), then clear `playInterval` again
if still set (always dead after `pause`, kept for fidelity).  Every
statement in the source body is non-throwing, so the embedding is a
total function. -/
def Timeline.destroy (st : TimelineState) (sys : TimerSys) :
    TimelineState × TimerSys :=
  let r := Timeline.pause st sys
  match r.1.playInterval with
  | some id => (r.1, r.2.clear id)
  | none => r

/-- Concrete page for the C5 witness: no selector resolves. -/
def emptyDom : String → Bool := fun _ => false

/-- Concrete Timeline config (the coordinator's timeline descriptor
config, merged over the defaults). -/
def timelineCfg : TimelineConfig :=
  { dataSource := "src/data/events.json", startDate := none, endDate := none }

/-- Concrete Timeline state for witnesses: playback running on timer 5. -/
def timelineStateW : TimelineState :=
  { config := timelineCfg, events := [], currentIndex := 0, isPlaying := true,
    playInterval := some 5 }

/-- Concrete map-module state for the C7 witness. -/
def mapStateW : MapState :=
  { mapHandle := true,
    markers := [("a", Opacity.full), ("b", Opacity.full), ("c", Opacity.dimmed)],
    locationData :=
      [⟨"a", some 0⟩, ⟨"b", some (8 * 86400000)⟩, ⟨"c", none⟩],
    layerGroups := ["events", "infrastructure", "humanitarian", "borders"] }

/-- Concrete map-module state for the C7 counterexample: one marker at
full opacity whose location record carries no date. -/
def mapStateNoDate : MapState :=
  { mapHandle := true, markers := [("a", Opacity.full)],
    locationData := [⟨"a", none⟩], layerGroups := [] }

theorem lookupEvent_setEvent_self (evs : List (String × List Nat)) (ev : String)
    (cbs : List Nat) : lookupEvent (setEvent evs ev cbs) ev = some cbs := by
  induction evs with
  | nil => simp [setEvent, lookupEvent]
  | cons p rest ih =>
      obtain ⟨e, l⟩ := p
      by_cases h : e = ev <;> simp [setEvent, lookupEvent, h, ih]

theorem lookupEvent_setEvent_other (evs : List (String × List Nat)) (ev e2 : String)
    (cbs : List Nat) (h : e2 ≠ ev) :
    lookupEvent (setEvent evs ev cbs) e2 = lookupEvent evs e2 := by
  induction evs with
  | nil => simp [setEvent, lookupEvent, Ne.symm h]
  | cons p rest ih =>
      obtain ⟨e, l⟩ := p
      by_cases he : e = ev
      · subst he
        simp [setEvent, lookupEvent, Ne.symm h]
      · simp [setEvent, lookupEvent, he, ih]

theorem busOn_trace (s : BusState) (ev : String) (c : Nat) :
    (busOn s ev c).trace = s.trace := by
  unfold busOn
  cases lookupEvent s.events ev <;> rfl

theorem busOff_trace (s : BusState) (ev : String) (c : Nat) :
    (busOff s ev c).trace = s.trace := by
  unfold busOff
  cases lookupEvent s.events ev <;> rfl

theorem lookupEvent_busOn_other (s : BusState) (ev e2 : String) (c : Nat) (h : e2 ≠ ev) :
    lookupEvent (busOn s ev c).events e2 = lookupEvent s.events e2 := by
  unfold busOn
  cases lookupEvent s.events ev <;>
    simp [lookupEvent_setEvent_other _ _ _ _ h]

theorem lookupEvent_busOff_other (s : BusState) (ev e2 : String) (c : Nat) (h : e2 ≠ ev) :
    lookupEvent (busOff s ev c).events e2 = lookupEvent s.events e2 := by
  unfold busOff
  cases lookupEvent s.events ev <;>
    simp [lookupEvent_setEvent_other _ _ _ _ h]

theorem runBody_trace (body : List CbEff) : ∀ s : BusState,
    (runBody s body).1.trace = s.trace := by
  induction body with
  | nil => intro s; rfl
  | cons e rest ih =>
      intro s
      cases e with
      | noop => simpa [runBody] using ih s
      | doOn ev c => simpa [runBody, busOn_trace] using ih (busOn s ev c)
      | doOff ev c => simpa [runBody, busOff_trace] using ih (busOff s ev c)
      | throwErr => rfl

theorem runBody_keeps (ev : String) (body : List CbEff)
    (hb : ∀ e ∈ body, effKeeps ev e = true) : ∀ (s : BusState) (L : List Nat),
    lookupEvent s.events ev = some L →
    ∃ extra, lookupEvent (runBody s body).1.events ev = some (L ++ extra) := by
  induction body with
  | nil => intro s L hl; exact ⟨[], by simpa [runBody]⟩
  | cons e rest ih =>
      intro s L hl
      have hrest : ∀ e ∈ rest, effKeeps ev e = true := fun e he => hb e (by simp [he])
      cases e with
      | noop => simpa [runBody] using ih hrest s L hl
      | doOn e2 c =>
          by_cases h : e2 = ev
          · subst h
            have hl' : lookupEvent (busOn s e2 c).events e2 = some (L ++ [c]) := by
              simp [busOn, hl, lookupEvent_setEvent_self]
            obtain ⟨extra, hx⟩ := ih hrest (busOn s e2 c) (L ++ [c]) hl'
            exact ⟨[c] ++ extra, by simpa [runBody, List.append_assoc] using hx⟩
          · have hl' : lookupEvent (busOn s e2 c).events ev = some L := by
              rw [lookupEvent_busOn_other _ _ _ _ (Ne.symm h)]; exact hl
            simpa [runBody] using ih hrest (busOn s e2 c) L hl'
      | doOff e2 c =>
          have h : e2 ≠ ev := by
            have := hb (CbEff.doOff e2 c) (by simp)
            simpa [effKeeps] using this
          have hl' : lookupEvent (busOff s e2 c).events ev = some L := by
            rw [lookupEvent_busOff_other _ _ _ _ (Ne.symm h)]; exact hl
          simpa [runBody] using ih hrest (busOff s e2 c) L hl'
      | throwErr => exact ⟨[], by simpa [runBody]⟩

theorem runBody_inert (ev : String) (body : List CbEff)
    (hb : ∀ e ∈ body, effInert ev e = true) : ∀ s : BusState,
    lookupEvent (runBody s body).1.events ev = lookupEvent s.events ev := by
  induction body with
  | nil => intro s; rfl
  | cons e rest ih =>
      intro s
      have hrest : ∀ e ∈ rest, effInert ev e = true := fun e he => hb e (by simp [he])
      cases e with
      | noop => simpa [runBody] using ih hrest s
      | doOn e2 c =>
          have h : e2 ≠ ev := by
            have := hb (CbEff.doOn e2 c) (by simp)
            simpa [effInert] using this
          rw [runBody, ih hrest, lookupEvent_busOn_other _ _ _ _ (Ne.symm h)]
      | doOff e2 c =>
          have h : e2 ≠ ev := by
            have := hb (CbEff.doOff e2 c) (by simp)
            simpa [effInert] using this
          rw [runBody, ih hrest, lookupEvent_busOff_other _ _ _ _ (Ne.symm h)]
      | throwErr => rfl

theorem runBody_throws (body : List CbEff) (hb : CbEff.throwErr ∈ body) :
    ∀ s : BusState, (runBody s body).2 = true := by
  induction body with
  | nil => cases hb
  | cons e rest ih =>
      intro s
      cases e with
      | noop =>
          have : CbEff.throwErr ∈ rest := by simpa using hb
          simpa [runBody] using ih this s
      | doOn ev c =>
          have : CbEff.throwErr ∈ rest := by simpa using hb
          simpa [runBody] using ih this (busOn s ev c)
      | doOff ev c =>
          have : CbEff.throwErr ∈ rest := by simpa using hb
          simpa [runBody] using ih this (busOff s ev c)
      | throwErr => rfl

theorem invoke_plainKeeps (env : Env) (ev : String) (c : Nat)
    (h : plainKeeps env ev c) (s : BusState) (L : List Nat)
    (hl : lookupEvent s.events ev = some L) (args : Args) :
    (invoke env s c args).1.trace = s.trace ++ [(c, args)] ∧
    ∃ extra, lookupEvent (invoke env s c args).1.events ev = some (L ++ extra) := by
  obtain ⟨body, hc, hk⟩ := h
  constructor
  · simp [invoke, hc, runBody_trace]
  · have hinv : invoke env s c args
        = runBody { s with trace := s.trace ++ [(c, args)] } body := by
      simp [invoke, hc]
    rw [hinv]
    exact runBody_keeps ev body hk { s with trace := s.trace ++ [(c, args)] } L hl

theorem emitSteps_plainKeeps (env : Env) (ev : String) (args : Args) (orig : List Nat)
    (hall : ∀ c ∈ orig, plainKeeps env ev c) :
    ∀ (rest k : Nat) (s : BusState) (extra : List Nat),
      lookupEvent s.events ev = some (orig ++ extra) →
      k + rest = orig.length →
      (∃ extra2,
          lookupEvent (emitSteps env ev args k rest s).events ev = some (orig ++ extra2)) ∧
      (emitSteps env ev args k rest s).trace
        = s.trace ++ (orig.drop k).map (fun c => (c, args)) := by
  intro rest
  induction rest with
  | zero =>
      intro k s extra hl hk
      have hdrop : orig.drop k = [] := List.drop_eq_nil_of_le (by omega)
      exact ⟨⟨extra, by simpa [emitSteps] using hl⟩, by simp [emitSteps, hdrop]⟩
  | succ n ih =>
      intro k s extra hl hk
      have hko : k < orig.length := by omega
      have hkc : k < ((lookupEvent s.events ev).getD []).length := by
        rw [hl]; simp; omega
      have hget : ((lookupEvent s.events ev).getD []).get ⟨k, hkc⟩ = orig.get ⟨k, hko⟩ := by
        have : (lookupEvent s.events ev).getD [] = orig ++ extra := by rw [hl]; rfl
        simp only [List.get_eq_getElem] at *
        rw [List.getElem_of_eq this, List.getElem_append_left hko]
      have hmem : orig.get ⟨k, hko⟩ ∈ orig := List.get_mem orig k hko
      obtain ⟨htr, ⟨extra2, hlk2⟩⟩ :=
        invoke_plainKeeps env ev (orig.get ⟨k, hko⟩) (hall _ hmem) s (orig ++ extra)
          hl args
      rw [List.append_assoc] at hlk2
      have hstep :
          emitSteps env ev args k (n + 1) s
            = emitSteps env ev args (k + 1) n
                (invoke env s (orig.get ⟨k, hko⟩) args).1 := by
        rw [emitSteps]
        simp only [dif_pos hkc, hget]
      obtain ⟨hex, htr2⟩ :=
        ih (k + 1) (invoke env s (orig.get ⟨k, hko⟩) args).1 (extra ++ extra2) hlk2
          (by omega)
      refine ⟨by rwa [hstep], ?_⟩
      have hdrop : orig.drop k = orig.get ⟨k, hko⟩ :: orig.drop (k + 1) := by
        rw [List.get_eq_getElem]
        exact List.drop_eq_getElem_cons hko
      rw [hstep, htr2, htr, hdrop, List.map_cons, List.append_assoc]
      rfl

/-- C1 (amended).  A single `emit(eventName, ...args)` invokes each
callback registered for `eventName` at the start of the emit exactly
once and in registration order, provided none of those callbacks
unsubscribes a callback of the emitted event while the emit runs
(subscribing, benign work and throwing are all allowed).  The claim's
stronger form — stability even when a callback unsubscribes itself or
another callback of the same event mid-emit — fails, because `emit`
iterates the live array: see `emit_skips_after_mid_emit_unsubscribe`. -/
theorem emit_invokes_registered_callbacks (env : Env) (s : BusState) (ev : String)
    (args : Args) (cbs : List Nat)
    (hlk : lookupEvent s.events ev = some cbs)
    (hall : ∀ c ∈ cbs, plainKeeps env ev c) :
    (emit env s ev args).trace = s.trace ++ cbs.map (fun c => (c, args)) := by
  have h :=
    emitSteps_plainKeeps env ev args cbs hall cbs.length 0 s [] (by simpa using hlk)
      (by omega)
  simpa [emit, hlk] using h.2

/-- C1 (counterexample).  With callbacks 0 and 1 registered for "e" and
callback 0 unsubscribing itself during the emit, callback 1 — although
registered at the start of the emit — is never invoked: `forEach` over
the live array skips the element that shifted into the vacated slot.
This falsifies the claim that every callback registered at the start of
an emit runs exactly once even when one unsubscribes mid-emit. -/
theorem emit_skips_after_mid_emit_unsubscribe :
    lookupEvent (BusState.mk [("e", [0, 1])] []).events "e" = some [0, 1] ∧
    (emit envSkip (BusState.mk [("e", [0, 1])] []) "e" []).trace = [(0, [])] ∧
    (1, ([] : Args)) ∉ (emit envSkip (BusState.mk [("e", [0, 1])] []) "e" []).trace := by
  refine ⟨by decide, by decide, by decide⟩

theorem emit_invokes_registered_callbacks_witness :
    (emit envW1 (BusState.mk [("e", [0, 1])] []) "e" []).trace
      = [] ++ [0, 1].map (fun c => (c, ([] : Args))) :=
  emit_invokes_registered_callbacks envW1 (BusState.mk [("e", [0, 1])] []) "e" [] [0, 1]
    (by decide) (fun c _ => ⟨[], rfl, by simp⟩)

/-- C2.  If one callback throws during `emit`, the per-callback
try/catch inside `emit` swallows the error (in the embedding, the
thrown-flag returned by `invoke` is discarded by `emitSteps`, and `emit`
is a total function on bus states), and every callback registered after
the throwing one for the same event is still invoked with the same
arguments.  As in C1, the callbacks must not unsubscribe callbacks of
the emitted event — throwing itself never stops the iteration. -/
theorem emit_throwing_callback_does_not_stop_later_callbacks (env : Env) (s : BusState)
    (ev : String) (args : Args) (cbs : List Nat)
    (hlk : lookupEvent s.events ev = some cbs)
    (hall : ∀ c ∈ cbs, plainKeeps env ev c)
    (i j : Fin cbs.length) (hij : i < j) (hthrow : plainThrows env (cbs.get i)) :
    (cbs.get j, args) ∈ (emit env s ev args).trace := by
  have h :=
    emitSteps_plainKeeps env ev args cbs hall cbs.length 0 s [] (by simpa using hlk)
      (by omega)
  have htr : (emit env s ev args).trace = s.trace ++ cbs.map (fun c => (c, args)) := by
    simpa [emit, hlk] using h.2
  rw [htr]
  exact List.mem_append_right _ (List.mem_map.mpr ⟨cbs.get j, List.get_mem _ _ _, rfl⟩)

theorem emit_throwing_callback_witness :
    ((1 : Nat), ([] : Args))
      ∈ (emit envW2 (BusState.mk [("e", [0, 1])] []) "e" []).trace :=
  emit_throwing_callback_does_not_stop_later_callbacks envW2
    (BusState.mk [("e", [0, 1])] []) "e" [] [0, 1] (by decide)
    (fun c hc => by
      fin_cases hc
      · exact ⟨[CbEff.throwErr], rfl, by decide⟩
      · exact ⟨[], rfl, by simp⟩)
    ⟨0, by decide⟩ ⟨1, by decide⟩ (by decide) ⟨[CbEff.throwErr], rfl, by decide⟩

theorem runBody_no_throw (body : List CbEff) (hb : CbEff.throwErr ∉ body) :
    ∀ s : BusState, (runBody s body).2 = false := by
  induction body with
  | nil => intro s; rfl
  | cons e rest ih =>
      intro s
      have hrest : CbEff.throwErr ∉ rest := fun h => hb (by simp [h])
      cases e with
      | noop => simpa [runBody] using ih hrest s
      | doOn ev c => simpa [runBody] using ih hrest (busOn s ev c)
      | doOff ev c => simpa [runBody] using ih hrest (busOff s ev c)
      | throwErr => exact absurd (by simp) hb

theorem countCb_append (c : Nat) (tr1 tr2 : List (Nat × Args)) :
    countCb c (tr1 ++ tr2) = countCb c tr1 + countCb c tr2 := by
  simp [countCb, List.filter_append]

theorem emit_empty (env : Env) (s : BusState) (ev : String) (args : Args)
    (hl : lookupEvent s.events ev = some []) : emit env s ev args = s := by
  simp [emit, hl, emitSteps]

/-- One `emit` against a lone `once` wrapper whose wrapped callback
completes normally: the wrapper and the wrapped callback each run once
and the wrapper's trailing `off` empties the subscription list. -/
theorem emit_once_consumes (env : Env) (ev : String) (args : Args) (w : Nat)
    (info : OnceInfo) (hw : env w = CbKind.onceWrap info) (hev : info.event = ev)
    (hnt : CbEff.throwErr ∉ info.innerBody)
    (hin : ∀ e ∈ info.innerBody, effInert ev e = true)
    (s : BusState) (hl : lookupEvent s.events ev = some [w]) :
    lookupEvent (emit env s ev args).events ev = some [] ∧
    (emit env s ev args).trace = s.trace ++ [(w, args), (info.innerId, args)] := by
  have hstep : emit env s ev args = (invoke env s w args).1 := by
    simp [emit, hl, emitSteps, lookupEvent]
  set s1 : BusState :=
    { s with trace := s.trace ++ [(w, args), (info.innerId, args)] } with hs1
  have hrb2 : (runBody s1 info.innerBody).2 = false := runBody_no_throw _ hnt s1
  have hinv : (invoke env s w args).1 = busOff (runBody s1 info.innerBody).1 info.event w := by
    simp [invoke, hw, hrb2]
  have hlk1 : lookupEvent (runBody s1 info.innerBody).1.events ev = some [w] := by
    rw [runBody_inert ev _ hin s1]
    exact hl
  have htr1 : (runBody s1 info.innerBody).1.trace = s1.trace := runBody_trace _ s1
  constructor
  · rw [hstep, hinv, hev, busOff, hlk1]
    simpa using lookupEvent_setEvent_self (runBody s1 info.innerBody).1.events ev _
  · rw [hstep, hinv, busOff_trace, htr1]

/-- C4.  After a single `once(eventName, cb)` on a fresh bus, two
subsequent emits of that event invoke `cb` exactly once in total, and
the wrapper has unregistered itself after the first emit.  `cb` is the
wrapped callback `info.innerId`; it is required to complete normally
(no throw — the throwing case is the subject of C10) and not to touch
the subscription list of the emitted event, and the wrapper closure is
a fresh function distinct from `cb` (as `once` always builds a new
arrow function in the source). -/
theorem once_two_emits_invoke_callback_once (env : Env) (ev : String) (w : Nat)
    (info : OnceInfo) (hw : env w = CbKind.onceWrap info) (hev : info.event = ev)
    (hwc : info.innerId ≠ w) (hnt : CbEff.throwErr ∉ info.innerBody)
    (hin : ∀ e ∈ info.innerBody, effInert ev e = true) (args args2 : Args) :
    countCb info.innerId
        (emit env (emit env (busOnce (BusState.mk [] []) ev w) ev args) ev args2).trace
      = 1 ∧
    lookupEvent (emit env (busOnce (BusState.mk [] []) ev w) ev args).events ev
      = some [] := by
  have hs1 : busOnce (BusState.mk [] []) ev w = BusState.mk [(ev, [w])] [] := rfl
  have hl1 : lookupEvent (busOnce (BusState.mk [] []) ev w).events ev = some [w] := by
    rw [hs1]; simp [lookupEvent]
  obtain ⟨hl2, htr2⟩ :=
    emit_once_consumes env ev args w info hw hev hnt hin _ hl1
  have hemit2 :
      emit env (emit env (busOnce (BusState.mk [] []) ev w) ev args) ev args2
        = emit env (busOnce (BusState.mk [] []) ev w) ev args :=
    emit_empty env _ ev args2 hl2
  refine ⟨?_, hl2⟩
  rw [hemit2, htr2, hs1]
  simp [countCb, List.filter_cons, Ne.symm hwc]

theorem once_two_emits_witness :
    countCb 1
        (emit envOnceOk (emit envOnceOk (busOnce (BusState.mk [] []) "e" 0) "e" [])
          "e" []).trace = 1 ∧
    lookupEvent (emit envOnceOk (busOnce (BusState.mk [] []) "e" 0) "e" []).events "e"
      = some [] :=
  once_two_emits_invoke_callback_once envOnceOk "e" 0 ⟨"e", 1, [CbEff.noop]⟩ rfl rfl
    (by decide) (by decide) (by decide) [] []

/-- One `emit` against a lone `once` wrapper whose wrapped callback
throws: the wrapper's self-removing `off` is never reached, so the
wrapper stays registered, while `emit`'s try/catch swallows the error. -/
theorem emit_once_throwing_persists (env : Env) (ev : String) (args : Args) (w : Nat)
    (info : OnceInfo) (hw : env w = CbKind.onceWrap info)
    (hth : CbEff.throwErr ∈ info.innerBody)
    (hin : ∀ e ∈ info.innerBody, effInert ev e = true)
    (s : BusState) (hl : lookupEvent s.events ev = some [w]) :
    lookupEvent (emit env s ev args).events ev = some [w] ∧
    (emit env s ev args).trace = s.trace ++ [(w, args), (info.innerId, args)] := by
  have hstep : emit env s ev args = (invoke env s w args).1 := by
    simp [emit, hl, emitSteps, lookupEvent]
  set s1 : BusState :=
    { s with trace := s.trace ++ [(w, args), (info.innerId, args)] } with hs1
  have hrb2 : (runBody s1 info.innerBody).2 = true := runBody_throws _ hth s1
  have hinv : (invoke env s w args).1 = (runBody s1 info.innerBody).1 := by
    simp [invoke, hw, hrb2]
  constructor
  · rw [hstep, hinv, runBody_inert ev _ hin s1]
    exact hl
  · rw [hstep, hinv, runBody_trace]

theorem emitIter_once_throwing (env : Env) (ev : String) (args : Args) (w : Nat)
    (info : OnceInfo) (hw : env w = CbKind.onceWrap info) (hwc : info.innerId ≠ w)
    (hth : CbEff.throwErr ∈ info.innerBody)
    (hin : ∀ e ∈ info.innerBody, effInert ev e = true) :
    ∀ (n : Nat) (s : BusState), lookupEvent s.events ev = some [w] →
      lookupEvent (emitIter env ev args n s).events ev = some [w] ∧
      countCb info.innerId (emitIter env ev args n s).trace
        = countCb info.innerId s.trace + n := by
  intro n
  induction n with
  | zero => intro s hl; exact ⟨hl, by simp [emitIter]⟩
  | succ m ih =>
      intro s hl
      obtain ⟨hl1, htr1⟩ := emit_once_throwing_persists env ev args w info hw hth hin s hl
      obtain ⟨hl2, htr2⟩ := ih (emit env s ev args) hl1
      refine ⟨by simpa [emitIter] using hl2, ?_⟩
      have : countCb info.innerId (emit env s ev args).trace
          = countCb info.innerId s.trace + 1 := by
        rw [htr1, countCb_append]
        simp [countCb, List.filter_cons, Ne.symm hwc]
      simp only [emitIter] at htr2 ⊢
      rw [htr2, this]
      omega

/-- C10 (implicit).  When the callback wrapped by `once(eventName, cb)`
throws on its first invocation, the wrapper body never reaches its
self-removing `off` call — the exception propagates out of the wrapper
and is swallowed by `emit`'s per-callback catch — so the wrapper stays
registered and `cb` is invoked again on every subsequent emit of that
event: after `n` emits the wrapper is still subscribed and `cb` has run
`n` times. -/
theorem once_throwing_callback_reinvoked (env : Env) (ev : String) (w : Nat)
    (info : OnceInfo) (hw : env w = CbKind.onceWrap info) (hwc : info.innerId ≠ w)
    (hth : CbEff.throwErr ∈ info.innerBody)
    (hin : ∀ e ∈ info.innerBody, effInert ev e = true) (args : Args) (n : Nat) :
    lookupEvent (emitIter env ev args n (busOnce (BusState.mk [] []) ev w)).events ev
      = some [w] ∧
    countCb info.innerId
      (emitIter env ev args n (busOnce (BusState.mk [] []) ev w)).trace = n := by
  have hl1 : lookupEvent (busOnce (BusState.mk [] []) ev w).events ev = some [w] := by
    simp [busOnce, busOn, lookupEvent, setEvent]
  obtain ⟨h1, h2⟩ :=
    emitIter_once_throwing env ev args w info hw hwc hth hin n _ hl1
  exact ⟨h1, by simpa [busOnce, busOn, lookupEvent, countCb] using h2⟩

theorem once_throwing_callback_witness :
    lookupEvent
        (emitIter envOnceThrow "e" [] 2 (busOnce (BusState.mk [] []) "e" 0)).events "e"
      = some [0] ∧
    countCb 1
        (emitIter envOnceThrow "e" [] 2 (busOnce (BusState.mk [] []) "e" 0)).trace
      = 2 :=
  once_throwing_callback_reinvoked envOnceThrow "e" 0 ⟨"e", 1, [CbEff.throwErr]⟩ rfl
    (by decide) (by decide) (by decide) [] 2

theorem initializeModules_cons (m : String × ModResult)
    (rest : List (String × ModResult)) :
    initializeModules (m :: rest)
      = ((moduleAttempt m).1 ++ (initializeModules rest).1,
         (moduleAttempt m).2 ++ (initializeModules rest).2) := rfl

theorem initializeModules_append (xs ys : List (String × ModResult)) :
    initializeModules (xs ++ ys)
      = ((initializeModules xs).1 ++ (initializeModules ys).1,
         (initializeModules xs).2 ++ (initializeModules ys).2) := by
  induction xs with
  | nil => simp [initializeModules]
  | cons m rest ih =>
      simp [initializeModules_cons, ih]

theorem initializeModules_all_ok (xs : List (String × ModResult))
    (h : ∀ p ∈ xs, p.2 = ModResult.ok) :
    (initializeModules xs).2 = xs.map Prod.fst ∧
    ∀ p ∈ xs, BootStep.initCalled p.1 ∈ (initializeModules xs).1 := by
  induction xs with
  | nil => simp [initializeModules]
  | cons m rest ih =>
      obtain ⟨n, r⟩ := m
      have hr : r = ModResult.ok := h (n, r) (by simp)
      subst hr
      obtain ⟨h1, h2⟩ := ih (fun p hp => h p (by simp [hp]))
      constructor
      · simp [initializeModules_cons, moduleAttempt, h1]
      · intro p hp
        rw [initializeModules_cons]
        rcases List.mem_cons.mp hp with hp1 | hp1
        · subst hp1
          simp [moduleAttempt]
        · exact List.mem_append_right _ (h2 p hp1)

theorem initializeModules_not_mentioned (xs : List (String × ModResult)) (b : String)
    (hb : b ∉ xs.map Prod.fst) :
    (initializeModules xs).1.count (BootStep.initCalled b) = 0 ∧
    b ∉ (initializeModules xs).2 := by
  induction xs with
  | nil => simp [initializeModules]
  | cons m rest ih =>
      obtain ⟨n, r⟩ := m
      have hbn : b ≠ n := by
        intro h
        exact hb (by simp [h])
      have hbrest : b ∉ rest.map Prod.fst := fun h => hb (by simp [h])
      obtain ⟨h1, h2⟩ := ih hbrest
      rw [initializeModules_cons]
      constructor
      · rw [List.count_append, h1]
        cases r <;> simp [moduleAttempt, List.count_cons, hbn]
      · intro hmem
        rcases List.mem_append.mp hmem with hmem | hmem
        · cases r <;> simp [moduleAttempt] at hmem <;> exact hbn hmem
        · exact h2 hmem

theorem initCalled_mem_initializeModules (xs : List (String × ModResult)) (b : String)
    (h : BootStep.initCalled b ∈ (initializeModules xs).1) :
    ∃ r, (b, r) ∈ xs ∧ r ≠ ModResult.ctorThrows := by
  induction xs with
  | nil => simp [initializeModules] at h
  | cons m rest ih =>
      obtain ⟨n, r⟩ := m
      rw [initializeModules_cons] at h
      rcases List.mem_append.mp h with h1 | h1
      · cases r with
        | ctorThrows => simp [moduleAttempt] at h1
        | initRejects =>
            simp [moduleAttempt] at h1
            exact ⟨ModResult.initRejects, by simp [h1], by simp⟩
        | ok =>
            simp [moduleAttempt] at h1
            exact ⟨ModResult.ok, by simp [h1], by simp⟩
      · obtain ⟨r2, hr2, hne⟩ := ih h1
        exact ⟨r2, by simp [hr2], hne⟩

/-- C3.  In the coordinator's sequential bootstrap of a fixed ordered
descriptor list, a module whose constructor throws or whose `init`
rejects is caught at the per-module level: every successful module
scheduled before it and after it still has `init` called and ends up in
the registry (in schedule order), the failed module is absent from the
registry, and its `init` is attempted at most once (exactly once when
`init` rejected, never when the constructor threw) — it is not
retried. -/
theorem initializeModules_isolates_failure (pre post : List (String × ModResult))
    (b : String) (bad : ModResult) (hbad : bad ≠ ModResult.ok)
    (hpre : ∀ p ∈ pre, p.2 = ModResult.ok) (hpost : ∀ p ∈ post, p.2 = ModResult.ok)
    (hb : b ∉ (pre ++ post).map Prod.fst) :
    (initializeModules (pre ++ (b, bad) :: post)).2
        = pre.map Prod.fst ++ post.map Prod.fst ∧
    b ∉ (initializeModules (pre ++ (b, bad) :: post)).2 ∧
    (∀ p ∈ pre ++ post,
      BootStep.initCalled p.1 ∈ (initializeModules (pre ++ (b, bad) :: post)).1) ∧
    (initializeModules (pre ++ (b, bad) :: post)).1.count (BootStep.initCalled b)
        = if bad = ModResult.initRejects then 1 else 0 := by
  rw [List.map_append] at hb
  have hb1 : b ∉ pre.map Prod.fst := fun h => hb (List.mem_append.mpr (Or.inl h))
  have hb2 : b ∉ post.map Prod.fst := fun h => hb (List.mem_append.mpr (Or.inr h))
  have happ :=
    initializeModules_append pre ((b, bad) :: post)
  have hmid := initializeModules_cons (b, bad) post
  obtain ⟨hpre1, hpre2⟩ := initializeModules_all_ok pre hpre
  obtain ⟨hpost1, hpost2⟩ := initializeModules_all_ok post hpost
  obtain ⟨hcpre, hrpre⟩ := initializeModules_not_mentioned pre b hb1
  obtain ⟨hcpost, hrpost⟩ := initializeModules_not_mentioned post b hb2
  have hreg2 : (moduleAttempt (b, bad)).2 = [] := by
    cases bad <;> simp [moduleAttempt] at hbad ⊢
  have hcmid : (moduleAttempt (b, bad)).1.count (BootStep.initCalled b)
      = if bad = ModResult.initRejects then 1 else 0 := by
    cases bad <;> simp [moduleAttempt, List.count_cons] at hbad ⊢
  refine ⟨?_, ?_, ?_, ?_⟩
  · rw [happ, hmid]
    simp [hreg2, hpre1, hpost1]
  · rw [happ, hmid]
    intro hmem
    simp only [List.mem_append] at hmem
    rcases hmem with h | h | h
    · exact hrpre h
    · rw [hreg2] at h; cases h
    · exact hrpost h
  · intro p hp
    rw [happ, hmid]
    rcases List.mem_append.mp hp with h | h
    · exact List.mem_append_left _ (hpre2 p h)
    · exact List.mem_append_right _ (List.mem_append_right _ (hpost2 p h))
  · rw [happ, hmid]
    rw [List.count_append, List.count_append, hcpre, hcpost, hcmid]
    omega

theorem initializeModules_isolates_failure_witness :
    (initializeModules
        [("timeline", ModResult.ok), ("map", ModResult.initRejects),
         ("news", ModResult.ok)]).2 = ["timeline"] ++ ["news"] ∧
    "map" ∉ (initializeModules
        [("timeline", ModResult.ok), ("map", ModResult.initRejects),
         ("news", ModResult.ok)]).2 ∧
    (∀ p ∈ [("timeline", ModResult.ok)] ++ [("news", ModResult.ok)],
      BootStep.initCalled p.1 ∈ (initializeModules
        [("timeline", ModResult.ok), ("map", ModResult.initRejects),
         ("news", ModResult.ok)]).1) ∧
    (initializeModules
        [("timeline", ModResult.ok), ("map", ModResult.initRejects),
         ("news", ModResult.ok)]).1.count (BootStep.initCalled "map")
      = if ModResult.initRejects = ModResult.initRejects then 1 else 0 :=
  initializeModules_isolates_failure [("timeline", ModResult.ok)]
    [("news", ModResult.ok)] "map" ModResult.initRejects (by decide)
    (by intro p hp; fin_cases hp <;> rfl)
    (by intro p hp; fin_cases hp <;> rfl) (by decide)

/-- C5.  A module whose target container region does not exist in the
page fails at construction time — the Timeline constructor throws
"Timeline container not found" before anything else, so `init` is not
part of construction — and the coordinator's per-module bootstrap never
calls `init` on a module whose construction failed: no `initCalled`
step for that module appears in the bootstrap trace. -/
theorem missing_container_skips_init (dom : String → Bool) (container : String)
    (cfg : TimelineConfig) (hdom : dom container = false)
    (pre post : List (String × ModResult)) (b : String)
    (hb : b ∉ (pre ++ post).map Prod.fst) :
    Timeline.construct dom container cfg
        = Except.error "Timeline container not found" ∧
    BootStep.initCalled b
        ∉ (initializeModules (pre ++ (b, ModResult.ctorThrows) :: post)).1 := by
  rw [List.map_append] at hb
  have hb1 : b ∉ pre.map Prod.fst := fun h => hb (List.mem_append.mpr (Or.inl h))
  have hb2 : b ∉ post.map Prod.fst := fun h => hb (List.mem_append.mpr (Or.inr h))
  constructor
  · simp [Timeline.construct, hdom]
  · intro hmem
    obtain ⟨r, hr, hne⟩ := initCalled_mem_initializeModules _ _ hmem
    rcases List.mem_append.mp hr with h | h
    · exact hb1 (List.mem_map.mpr ⟨(b, r), h, rfl⟩)
    · rcases List.mem_cons.mp h with h1 | h1
      · exact hne (congrArg Prod.snd h1)
      · exact hb2 (List.mem_map.mpr ⟨(b, r), h1, rfl⟩)

theorem missing_container_skips_init_witness :
    Timeline.construct emptyDom "#timeline-container" timelineCfg
        = Except.error "Timeline container not found" ∧
    BootStep.initCalled "timeline"
        ∉ (initializeModules
            [("timeline", ModResult.ctorThrows), ("map", ModResult.ok)]).1 :=
  missing_container_skips_init emptyDom "#timeline-container" timelineCfg rfl []
    [("map", ModResult.ok)] "timeline" (by decide)

/-- C6.  When the Timeline data source fails — the fetch rejects or the
payload is malformed — `init` still completes without rejecting, and
the module's events state equals the built-in fallback dataset, with
`config.startDate`/`config.endDate` set from the first and last
fallback events. -/
theorem timeline_init_falls_back (st : TimelineState) (fetch : FetchOutcome)
    (hfail : fetch = FetchOutcome.fetchFails ∨ fetch = FetchOutcome.malformed) :
    Timeline.init st fetch = Except.ok (Timeline.loadFallbackData st) ∧
    (Timeline.loadFallbackData st).events = fallbackEvents ∧
    (Timeline.loadFallbackData st).config.startDate
        = some ((fallbackEvents.get ⟨0, by decide⟩).date) ∧
    (Timeline.loadFallbackData st).config.endDate
        = some ((fallbackEvents.get ⟨2, by decide⟩).date) := by
  rcases hfail with h | h <;> subst h <;> exact ⟨rfl, rfl, rfl, rfl⟩

theorem timeline_init_falls_back_witness :
    Timeline.init (TimelineState.mk timelineCfg [] 0 false none) FetchOutcome.fetchFails
        = Except.ok (Timeline.loadFallbackData
            (TimelineState.mk timelineCfg [] 0 false none)) ∧
    (Timeline.loadFallbackData
        (TimelineState.mk timelineCfg [] 0 false none)).events = fallbackEvents ∧
    (Timeline.loadFallbackData
        (TimelineState.mk timelineCfg [] 0 false none)).config.startDate
        = some ((fallbackEvents.get ⟨0, by decide⟩).date) ∧
    (Timeline.loadFallbackData
        (TimelineState.mk timelineCfg [] 0 false none)).config.endDate
        = some ((fallbackEvents.get ⟨2, by decide⟩).date) :=
  timeline_init_falls_back (TimelineState.mk timelineCfg [] 0 false none)
    FetchOutcome.fetchFails (Or.inl rfl)

theorem markerFilter_fst (st : MapState) (date : Int) (m : String × Opacity) :
    (markerFilter st date m).1 = m.1 := by
  unfold markerFilter
  split
  · split
    · split <;> rfl
    · rfl
  · rfl

theorem nodup_keys_eq {α β : Type} (l : List (α × β))
    (h : (l.map Prod.fst).Nodup) {a : α} {b c : β}
    (hb : (a, b) ∈ l) (hc : (a, c) ∈ l) : b = c := by
  induction l with
  | nil => cases hb
  | cons p rest ih =>
      rw [List.map_cons, List.nodup_cons] at h
      rcases List.mem_cons.mp hb with hb1 | hb1
      · rcases List.mem_cons.mp hc with hc1 | hc1
        · rw [← hb1] at hc1
          exact ((Prod.mk.injEq a c a b).mp hc1).2.symm
        · exfalso
          apply h.1
          rw [← hb1]
          exact List.mem_map.mpr ⟨(a, c), hc1, rfl⟩
      · rcases List.mem_cons.mp hc with hc1 | hc1
        · exfalso
          apply h.1
          rw [← hc1]
          exact List.mem_map.mpr ⟨(a, b), hb1, rfl⟩
        · exact ih h.2 hb1 hc1

/-- C7 (amended).  Emitting `timeline:dateChanged` with date D (routed
by the coordinator to `InteractiveMap.filterByDate`) partitions exactly
those markers whose id resolves to a location record carrying a date:
such a marker ends at full opacity iff its location's date lies within
7 days of D (inclusive at exactly 7 days), and at dimmed opacity iff it
lies outside.  The claim's universal form — every other marker gets
dimmed opacity — fails for markers whose location record is missing or
dateless: those keep their previous opacity (last conjuncts here, and
the counterexample `filterByDate_dateless_marker_kept`). -/
theorem filterByDate_partitions_dated_markers (st : MapState) (date : Int)
    (id : String) (op : Opacity) (hkeys : (st.markers.map Prod.fst).Nodup)
    (hmem : (id, op) ∈ st.markers) :
    (∀ loc, st.locationData.find? (fun l => l.id == id) = some loc →
      (∀ d, loc.date = some d →
        ((((id, Opacity.full) ∈ (InteractiveMap.filterByDate st date).markers))
            ↔ (date - d).natAbs ≤ 7 * 86400000) ∧
        ((((id, Opacity.dimmed) ∈ (InteractiveMap.filterByDate st date).markers))
            ↔ ¬ (date - d).natAbs ≤ 7 * 86400000)) ∧
      (loc.date = none →
        (id, op) ∈ (InteractiveMap.filterByDate st date).markers)) ∧
    (st.locationData.find? (fun l => l.id == id) = none →
      (id, op) ∈ (InteractiveMap.filterByDate st date).markers) := by
  have key : ∀ x : Opacity,
      (id, x) ∈ (InteractiveMap.filterByDate st date).markers
        ↔ markerFilter st date (id, op) = (id, x) := by
    intro x
    constructor
    · intro hx
      obtain ⟨m, hm, hfm⟩ := List.mem_map.mp hx
      obtain ⟨ma, mb⟩ := m
      have hfst : ma = id := by
        have h1 := markerFilter_fst st date (ma, mb)
        rw [hfm] at h1
        exact h1.symm
      subst hfst
      have hop : mb = op := nodup_keys_eq st.markers hkeys hm hmem
      subst hop
      exact hfm
    · intro hx
      exact List.mem_map.mpr ⟨(id, op), hmem, hx⟩
  refine ⟨?_, ?_⟩
  · intro loc hfind
    refine ⟨?_, ?_⟩
    · intro d hdate
      have hmf : markerFilter st date (id, op)
          = if (date - d).natAbs ≤ 7 * 86400000 then (id, Opacity.full)
            else (id, Opacity.dimmed) := by
        simp [markerFilter, hfind, hdate]
      constructor
      · rw [key Opacity.full, hmf]
        by_cases hc : (date - d).natAbs ≤ 7 * 86400000 <;> simp [hc]
      · rw [key Opacity.dimmed, hmf]
        by_cases hc : (date - d).natAbs ≤ 7 * 86400000 <;> simp [hc]
    · intro hdate
      rw [key op]
      simp [markerFilter, hfind, hdate]
  · intro hfind
    rw [key op]
    simp [markerFilter, hfind]

/-- C7 (counterexample).  Routing `timeline:dateChanged` with date 0 to
a map whose single marker "a" sits at full opacity while its location
record carries no date: the claim requires "a" to be dimmed (a dateless
location is not within 7 days of any date), but `filterByDate` leaves
it at full opacity. -/
theorem filterByDate_dateless_marker_kept :
    handleTimelineDateChanged (some mapStateNoDate) 0
        = some (InteractiveMap.filterByDate mapStateNoDate 0) ∧
    (InteractiveMap.filterByDate mapStateNoDate 0).markers = [("a", Opacity.full)] ∧
    Opacity.full ≠ Opacity.dimmed := by
  exact ⟨rfl, by decide, by decide⟩

theorem filterByDate_partitions_witness :
    (∀ loc, mapStateW.locationData.find? (fun l => l.id == "a") = some loc →
      (∀ d, loc.date = some d →
        ((("a", Opacity.full) ∈ (InteractiveMap.filterByDate mapStateW 0).markers)
            ↔ ((0 : Int) - d).natAbs ≤ 7 * 86400000) ∧
        ((("a", Opacity.dimmed) ∈ (InteractiveMap.filterByDate mapStateW 0).markers)
            ↔ ¬ ((0 : Int) - d).natAbs ≤ 7 * 86400000)) ∧
      (loc.date = none →
        ("a", Opacity.full) ∈ (InteractiveMap.filterByDate mapStateW 0).markers)) ∧
    (mapStateW.locationData.find? (fun l => l.id == "a") = none →
      ("a", Opacity.full) ∈ (InteractiveMap.filterByDate mapStateW 0).markers) :=
  filterByDate_partitions_dated_markers mapStateW 0 "a" Opacity.full (by decide)
    (by decide)

/-- C8.  Emitting `map:locationSelected` with a location record
carrying coordinates (routed by the coordinator to
`SatelliteImagery.showLocation`): when some known region's bounds
contain the coordinates, the satellite module's current location
switches to a region whose bounds contain them — the first such region
in the locations Map's insertion order — and when the coordinates lie
outside all known regions' bounds, the module state is left
unchanged. -/
theorem satellite_switches_to_containing_region (st : SatelliteState)
    (locRec : LocationRecord) (lat lng : Rat)
    (hrec : locRec.coordinates = some (lat, lng)) :
    ((∃ p ∈ satLocations, p.2.bounds.containsCoords lat lng = true) →
      ∃ p ∈ satLocations, p.2.bounds.containsCoords lat lng = true ∧
        (SatelliteImagery.showLocation st locRec).currentLocation = p.1) ∧
    ((∀ p ∈ satLocations, p.2.bounds.containsCoords lat lng = false) →
      SatelliteImagery.showLocation st locRec = st) := by
  constructor
  · rintro ⟨q, hq, hqc⟩
    obtain ⟨r, hr⟩ : ∃ r,
        satLocations.find? (fun p => p.2.bounds.containsCoords lat lng) = some r := by
      cases hfind : satLocations.find? (fun p => p.2.bounds.containsCoords lat lng) with
      | some r => exact ⟨r, rfl⟩
      | none => exact absurd hqc (List.find?_eq_none.mp hfind q hq)
    have hrmem : r ∈ satLocations := List.mem_of_find?_eq_some hr
    have hrc : r.2.bounds.containsCoords lat lng = true := by
      have h1 := List.find?_some hr
      simpa using h1
    have hany : satLocations.any (fun p => p.1 == r.1) = true := by
      rw [List.any_eq_true]
      exact ⟨r, hrmem, by simp⟩
    refine ⟨r, hrmem, hrc, ?_⟩
    simp [SatelliteImagery.showLocation, hrec,
      SatelliteImagery.findLocationByCoordinates, hr,
      SatelliteImagery.changeLocation, hany]
  · intro hall
    have hfind : satLocations.find? (fun p => p.2.bounds.containsCoords lat lng)
        = none :=
      List.find?_eq_none.mpr (fun p hp => by simp [hall p hp])
    simp [SatelliteImagery.showLocation, hrec,
      SatelliteImagery.findLocationByCoordinates, hfind]

theorem satellite_switches_witness :
    ∃ p ∈ satLocations,
      p.2.bounds.containsCoords (mkRat 313 10) (mkRat 3424 100) = true ∧
      (SatelliteImagery.showLocation (SatelliteState.mk "khan-younis" 3)
          (LocationRecord.mk (some (mkRat 313 10, mkRat 3424 100)))).currentLocation
        = p.1 :=
  (satellite_switches_to_containing_region (SatelliteState.mk "khan-younis" 3)
      (LocationRecord.mk (some (mkRat 313 10, mkRat 3424 100)))
      (mkRat 313 10) (mkRat 3424 100) rfl).1
    ⟨("gaza-strip",
        ⟨"Gaza Strip", ⟨mkRat 3159 100, mkRat 3122 100, mkRat 3457 100, mkRat 3422 100⟩⟩),
      by decide, by decide⟩

theorem TimerSys.fires_clear (sys : TimerSys) (id : Nat) :
    TimerSys.fires (sys.clear id) id = false := by
  simp [TimerSys.fires, TimerSys.clear, List.mem_filter]

/-- C9.  `destroy()` called twice in a row does not throw (both
embedded destroys are total functions, and the second call is a no-op
on the already-destroyed state), and the first `destroy()` clears any
previously active playback timer, so no further tick of that timer can
fire afterwards; likewise `InteractiveMap.destroy` is safe to call
twice. -/
theorem destroy_twice_and_timer_cleared (st : TimelineState) (sys : TimerSys)
    (mst : MapState) :
    Timeline.destroy (Timeline.destroy st sys).1 (Timeline.destroy st sys).2
        = Timeline.destroy st sys ∧
    (Timeline.destroy st sys).1.playInterval = none ∧
    (∀ id, st.playInterval = some id →
      TimerSys.fires (Timeline.destroy st sys).2 id = false) ∧
    InteractiveMap.destroy (InteractiveMap.destroy mst)
        = InteractiveMap.destroy mst := by
  refine ⟨?_, ?_, ?_, ?_⟩
  · cases hpi : st.playInterval <;>
      simp [Timeline.destroy, Timeline.pause, hpi]
  · cases hpi : st.playInterval <;>
      simp [Timeline.destroy, Timeline.pause, hpi]
  · intro id hpi
    simp [Timeline.destroy, Timeline.pause, hpi, TimerSys.fires_clear]
  · cases hm : mst.mapHandle <;> simp [InteractiveMap.destroy, hm]

theorem destroy_twice_witness :
    TimerSys.fires (Timeline.destroy timelineStateW (TimerSys.mk [5])).2 5 = false :=
  (destroy_twice_and_timer_cleared timelineStateW (TimerSys.mk [5])
      (MapState.mk false [] [] [])).2.2.1 5 rfl

end GazaDoc
